import Mathlib

/-! Apollon: load an audio file, loop it, play / pause it, pitch-shift it.

A shallow embedding of `Source/Utilities.h` and `Source/MainComponent.h`.

The C++ objects are mutated in place; here every operation takes the state it reads and
returns the state it leaves behind.  Times, positions and parameter values are C++
`double` / `float`; they are embedded as rationals, and arithmetic on them is exact.  The one
conversion the source writes out, `static_cast<float>` in `ParameterValueSource::setValue`,
is embedded as rounding to single precision.

The program is glue around an audio engine (`te::`) and a GUI toolkit (`juce::`) whose code
is not part of the sources.  Each engine or toolkit operation the program calls is given
here as a small definition at the level of its contract.  Doc comments tell the three kinds
of definition apart:

* `Embeds ...` : translated from `Utilities.h` / `MainComponent.h`;
* `Toolkit contract ...`, `Engine contract ...` : an operation of the libraries, as documented;
* `Language contract ...` : an operation of C++ itself;
* `Modelled from the spec: ...` : an engine operation whose behaviour the specification fixes
  (transport `play` / `stop` / `setLoopRange`, parameter `setParameter`).

Painting, layout, images and listener registration carry no state here.
-/

namespace Apollon

/-! ## Files and the disk -/

/-- A `juce::File`: a path. -/
structure File where
  path : String
deriving DecidableEq

/-- What the disk holds at a path.  `audioLength = some L` when the content decodes as audio
of `L` seconds; `none` for anything that is not audio (a text file, a directory, ...). -/
structure DiskEntry where
  path : String
  audioLength : Option ℚ
deriving DecidableEq

/-- The `te::Engine` as far as the program observes it: the disk it reads files from, and
the engine's verdict on clip insertion (`insertWaveClip` may return null, the source tests
for that; the program does not compute the verdict). -/
structure Engine where
  disk : List DiskEntry
  insertWaveClipSucceeds : Bool
deriving DecidableEq

/-- The disk entry at the path of `f`, if there is one. -/
def Engine.entry (engine : Engine) (f : File) : Option DiskEntry :=
  engine.disk.find? (fun e => e.path == f.path)

/-- Toolkit contract of `File::exists()`: something is on disk at that path. -/
def File.exists (engine : Engine) (f : File) : Bool :=
  (engine.entry f).isSome

/-- Toolkit contract of `File::deleteFile()`: removes what the disk holds at that path (nothing to
do when the path does not exist). -/
def File.deleteFile (engine : Engine) (f : File) : Engine :=
  { engine with disk := engine.disk.filter (fun e => !(e.path == f.path)) }

/-- Toolkit contract of `File::getFileNameWithoutExtension()`: the last path component, cut at its
last dot when that dot is not its first character. -/
def File.getFileNameWithoutExtension (f : File) : String :=
  let name := (f.path.splitOn "/").getLastD ""
  let stem := (name.splitOn ".").dropLast
  if stem = [] ∨ stem = [""] then name else ".".intercalate stem

/-- A `te::AudioFile`: a file seen as audio. -/
structure AudioFile where
  file : File
deriving DecidableEq

/-- Engine contract of `te::AudioFile (engine)`: the audio file of no file at all. -/
def AudioFile.none : AudioFile := ⟨⟨""⟩⟩

/-- Engine contract of `AudioFile::isValid()`: the file is on disk and decodes as audio. -/
def AudioFile.isValid (engine : Engine) (a : AudioFile) : Bool :=
  ((engine.entry a.file).bind (fun e => e.audioLength)).isSome

/-- Engine contract of `AudioFile::getLength()`: the decoded length in seconds, 0 when the file is
not valid. -/
def AudioFile.getLength (engine : Engine) (a : AudioFile) : ℚ :=
  ((engine.entry a.file).bind (fun e => e.audioLength)).getD 0

/-- Engine contract of `AudioFile::deleteFile()`: deletes the underlying file from disk. -/
def AudioFile.deleteFile (engine : Engine) (a : AudioFile) : Engine :=
  a.file.deleteFile engine

/-! ## Clips, tracks, transport, edit -/

/-- A time range in seconds. -/
structure TimeRange where
  start : ℚ
  end_ : ℚ
deriving DecidableEq

/-- Engine contract of `TimeRange::getLength()`: end minus start. -/
def TimeRange.getLength (r : TimeRange) : ℚ := r.end_ - r.start

/-- A clip position: where the clip sits in the edit, and the offset into its source. -/
structure ClipPosition where
  time : TimeRange
  offset : ℚ
deriving DecidableEq

/-- The time-stretch modes the program refers to. -/
inductive TimeStretcherMode where
  | disabled
  | melodyne
deriving DecidableEq

/-- A `te::WaveAudioClip`. -/
structure WaveAudioClip where
  itemID : Nat
  name : String
  sourceFile : File
  position : ClipPosition
  autoTempo : Bool
  autoPitch : Bool
  timeStretchMode : TimeStretcherMode
deriving DecidableEq

/-- Engine contract of `Clip::getEditTimeRange()`: the time range of the clip position. -/
def WaveAudioClip.getEditTimeRange (c : WaveAudioClip) : TimeRange := c.position.time

/-- Engine contract of `WaveAudioClip::getPlaybackFile()`: the audio file the clip plays (its
source file). -/
def WaveAudioClip.getPlaybackFile (c : WaveAudioClip) : AudioFile := ⟨c.sourceFile⟩

/-- Engine contract of `setAutoTempo`: a setter. -/
def WaveAudioClip.setAutoTempo (c : WaveAudioClip) (b : Bool) : WaveAudioClip :=
  { c with autoTempo := b }

/-- Engine contract of `setAutoPitch`: a setter. -/
def WaveAudioClip.setAutoPitch (c : WaveAudioClip) (b : Bool) : WaveAudioClip :=
  { c with autoPitch := b }

/-- Engine contract of `setTimeStretchMode`: a setter. -/
def WaveAudioClip.setTimeStretchMode (c : WaveAudioClip) (m : TimeStretcherMode) :
    WaveAudioClip :=
  { c with timeStretchMode := m }

/-- A `te::AudioTrack`: its clips and the type names of the plugins on it. -/
structure AudioTrack where
  clips : List WaveAudioClip
  pluginList : List String
deriving DecidableEq

/-- A freshly inserted track. -/
def AudioTrack.empty : AudioTrack := ⟨[], []⟩

/-- Engine contract of `Clip::removeFromParentTrack()`, against the track that holds the clip. -/
def WaveAudioClip.removeFromParentTrack (c : WaveAudioClip) (track : AudioTrack) :
    AudioTrack :=
  { track with clips := track.clips.filter (fun d => !(d.itemID == c.itemID)) }

/-- Engine contract of `AudioTrack::insertWaveClip (name, file, position, deleteExistingClips)`:
when the engine accepts the insertion, a new clip with the given name, source and position is
added to the track and returned; otherwise null is returned and the track is left as it is. -/
def AudioTrack.insertWaveClip (track : AudioTrack) (engine : Engine) (newID : Nat)
    (name : String) (file : File) (position : ClipPosition) (deleteExistingClips : Bool) :
    Option WaveAudioClip × AudioTrack :=
  if engine.insertWaveClipSucceeds then
    let newClip : WaveAudioClip :=
      { itemID := newID, name := name, sourceFile := file, position := position,
        autoTempo := false, autoPitch := false, timeStretchMode := .disabled }
    let kept := if deleteExistingClips then [] else track.clips
    (some newClip, { track with clips := kept ++ [newClip] })
  else
    (Option.none, track)

/-- The `te::TransportControl`: the two-state machine of the spec (`playing` false is
Stopped, true is Playing) with its position, loop range and looping flag.  The C++ code
assigns `position` and `looping` directly (`transport.position = ...`); these are plain
field updates here. -/
structure TransportControl where
  playing : Bool
  position : ℚ
  loopRange : TimeRange
  looping : Bool
  userDragging : Bool
deriving DecidableEq

/-- Engine contract of `isPlaying()`: reads the state. -/
def TransportControl.isPlaying (t : TransportControl) : Bool := t.playing

/-- Engine contract of `getLoopRange()`: reads the loop range. -/
def TransportControl.getLoopRange (t : TransportControl) : TimeRange := t.loopRange

/-- Engine contract of `getCurrentPosition()`: reads the position. -/
def TransportControl.getCurrentPosition (t : TransportControl) : ℚ := t.position

/-- Modelled from the spec: the engine's `TransportControl::play`.  Spec 4.4,
`Stopped --play()--> Playing`, starting at the current position; playing while Playing
stays Playing. -/
def TransportControl.play (t : TransportControl) (_justSendMMCIfEnabled : Bool) :
    TransportControl :=
  { t with playing := true }

/-- Modelled from the spec: the engine's `TransportControl::stop`.  Spec 4.4,
`Playing --stop()--> Stopped`, position is retained (not reset). -/
def TransportControl.stop (t : TransportControl) (_discardRecordings _clearDevices : Bool) :
    TransportControl :=
  { t with playing := false }

/-- Toolkit contract of `jlimit`: `v` clamped into `[lo, hi]`. -/
def jlimit (lo hi v : ℚ) : ℚ := if v < lo then lo else if hi < v then hi else v

/-- Modelled from the spec: the engine's `TransportControl::setLoopRange`.  Spec 3 and 7:
the loop range is always inside `[0, fileLength]`, a range outside the file bounds is
clamped at the API boundary.  `fileLength` is the length of what the edit holds. -/
def TransportControl.setLoopRange (t : TransportControl) (fileLength : ℚ) (r : TimeRange) :
    TransportControl :=
  { t with loopRange := ⟨jlimit 0 fileLength r.start, jlimit 0 fileLength r.end_⟩ }

/-- Engine contract of `setUserDragging`: a setter. -/
def TransportControl.setUserDragging (t : TransportControl) (b : Bool) : TransportControl :=
  { t with userDragging := b }

/-- A `te::Edit`: its engine, its audio tracks, its transport, and the next free item id. -/
structure Edit where
  engine : Engine
  tracks : List AudioTrack
  transport : TransportControl
  nextItemID : Nat
deriving DecidableEq

/-- Engine contract of `Edit::getTransport()`: the transport of the edit. -/
def Edit.getTransport (e : Edit) : TransportControl := e.transport

/-- Engine contract of `Edit::getLength()`: the end of the last clip in the edit, 0 for an edit
without clips. This is the `fileLength` of the spec. -/
def Edit.getLength (e : Edit) : ℚ :=
  (e.tracks.map (fun t => (t.clips.map (fun c => c.position.time.end_)).foldr max 0)).foldr max 0

/-- Engine contract of `Edit::ensureNumberOfAudioTracks (n)`: appends empty tracks until there are
`n`. -/
def Edit.ensureNumberOfAudioTracks (e : Edit) (n : Nat) : Edit :=
  { e with tracks := e.tracks ++ List.replicate (n - e.tracks.length) AudioTrack.empty }

/-- Writes a track back at index `i` (the C++ code mutates it through a pointer). -/
def Edit.setTrack (e : Edit) (i : Nat) (track : AudioTrack) : Edit :=
  { e with tracks := e.tracks.set i track }

/-- Applies `f` to the clip with the given id wherever it sits in the edit (the C++ code
mutates it through a pointer). -/
def Edit.modifyClip (e : Edit) (id : Nat) (f : WaveAudioClip → WaveAudioClip) : Edit :=
  { e with tracks := e.tracks.map (fun t =>
      { t with clips := t.clips.map (fun c => if c.itemID = id then f c else c) }) }

/-! ## `namespace Helpers` of Utilities.h -/

namespace Helpers

/-- Embeds `getStringOrDefault`: the ternary of the source, `stringToTest.isEmpty()` selecting
`stringToReturnIfEmpty`. -/
def getStringOrDefault (stringToTest stringToReturnIfEmpty : String) : String :=
  if stringToTest.isEmpty then stringToReturnIfEmpty else stringToTest

/-- Embeds `removeAllClips`: takes a copy of the clip array and, from the last index down to 0,
removes each of those clips from the track. -/
def removeAllClips (track : AudioTrack) : AudioTrack :=
  track.clips.foldr (fun c t => c.removeFromParentTrack t) track

/-- Embeds `getOrInsertAudioTrackAt`: makes sure there are `i + 1` audio tracks and returns the
`i`-th one (null when the array has no such index). -/
def getOrInsertAudioTrackAt (edit : Edit) (i : Nat) : Option AudioTrack × Edit :=
  let edit := edit.ensureNumberOfAudioTracks (i + 1)
  (edit.tracks[i]?, edit)

/-- Embeds `loadAudioFileAsClip`: on a valid audio file, empties the first track and inserts the
file as a clip at `[0, length]` with offset 0; returns the new clip, or null. -/
def loadAudioFileAsClip (edit : Edit) (file : File) : Option WaveAudioClip × Edit :=
  match getOrInsertAudioTrackAt edit 0 with
  | (some track, edit) =>
    let audioFile : AudioFile := ⟨file⟩
    if audioFile.isValid edit.engine then
      let track := removeAllClips track
      match track.insertWaveClip edit.engine edit.nextItemID file.getFileNameWithoutExtension
          file ⟨⟨0, audioFile.getLength edit.engine⟩, 0⟩ false with
      | (some newClip, track) =>
        (some newClip, { edit.setTrack 0 track with nextItemID := edit.nextItemID + 1 })
      | (Option.none, track) => (Option.none, edit.setTrack 0 track)
    else
      (Option.none, edit)
  | (Option.none, edit) => (Option.none, edit)

/-- Embeds `loopAroundClip`: loops the transport of the clip's edit around the clip, rewinds it
and starts it. -/
def loopAroundClip (edit : Edit) (clip : WaveAudioClip) : WaveAudioClip × Edit :=
  let transport := edit.getTransport
  let transport := transport.setLoopRange edit.getLength clip.getEditTimeRange
  let transport := { transport with looping := true }
  let transport := { transport with position := 0 }
  let transport := transport.play false
  (clip, { edit with transport := transport })

/-- Embeds `togglePlay`: if the transport is playing stop it, if not play it. -/
def togglePlay (edit : Edit) : Edit :=
  let transport := edit.getTransport
  { edit with transport :=
      if transport.isPlaying then transport.stop false false else transport.play false }

end Helpers

/-! ## `struct Thumbnail` of Utilities.h -/

/-- A mouse event: the pointer position relative to the component (it is outside
`[0, width]` when the pointer has been dragged off the component). -/
structure MouseEvent where
  x : ℚ
  y : ℚ
deriving DecidableEq

/-- The thumbnail's own state: the file its `smartThumbnail` shows, the cursor timer, the
cursor rectangle's visibility and the component width.  The `transport` member of the C++
struct is a reference to the edit's transport; the operations that use it take it as an
argument and return it. -/
structure Thumbnail where
  file : AudioFile
  cursorUpdaterHz : Option Nat
  cursorVisible : Bool
  width : ℤ
deriving DecidableEq

/-- The constructor: no file, cursor added and made visible, timer not started. -/
def Thumbnail.new : Thumbnail :=
  { file := AudioFile.none, cursorUpdaterHz := Option.none, cursorVisible := true, width := 0 }

/-- Embeds `Thumbnail::setFile`. -/
def Thumbnail.setFile (th : Thumbnail) (file : AudioFile) : Thumbnail :=
  let th := { th with file := file }
  let th := { th with cursorUpdaterHz := some 25 }
  { th with cursorVisible := true }

/-- Embeds `Thumbnail::mouseDrag`: `proportion = e.position.x / getWidth()`, then
`transport.position = proportion * transport.getLoopRange().getLength()`.  The
`jassert (getWidth() > 0)` is a debug assertion; it is a hypothesis where it matters. -/
def Thumbnail.mouseDrag (th : Thumbnail) (transport : TransportControl) (e : MouseEvent) :
    TransportControl :=
  let proportion : ℚ := e.x / (th.width : ℚ)
  { transport with position := proportion * transport.getLoopRange.getLength }

/-- Embeds `Thumbnail::mouseDown`. -/
def Thumbnail.mouseDown (th : Thumbnail) (transport : TransportControl) (e : MouseEvent) :
    TransportControl :=
  th.mouseDrag (transport.setUserDragging true) e

/-- Embeds `Thumbnail::mouseUp`. -/
def Thumbnail.mouseUp (_th : Thumbnail) (transport : TransportControl) (_e : MouseEvent) :
    TransportControl :=
  transport.setUserDragging false

/-- Embeds `Thumbnail::clearFile`: `smartThumbnail.file.deleteFile()` then hides the cursor. -/
def Thumbnail.clearFile (th : Thumbnail) (engine : Engine) : Thumbnail × Engine :=
  let engine := th.file.deleteFile engine
  ({ th with cursorVisible := false }, engine)

/-! ## Parameter, value source and slider -/

/-- The skew of a range.  `setSkewFactorFromMidPoint` computes a logarithm, which has no
rational value, so the skew is kept as the data it is computed from. -/
inductive Skew where
  | factor (q : ℚ)
  | fromMidPoint (start end_ centre : ℚ)
deriving DecidableEq

/-- A `juce::NormalisableRange`. -/
structure NormalisableRange where
  start : ℚ
  end_ : ℚ
  interval : ℚ
  skew : Skew
  symmetricSkew : Bool
deriving DecidableEq

/-- Toolkit contract of `NormalisableRange::snapToLegalValue`: snaps to the interval grid when
there is one, then clamps into `[start, end]`. -/
def NormalisableRange.snapToLegalValue (r : NormalisableRange) (v : ℚ) : ℚ :=
  let v := if r.interval > 0 then
      r.start + r.interval * (⌊(v - r.start) / r.interval + 1 / 2⌋ : ℚ) else v
  if v ≤ r.start ∨ r.end_ ≤ r.start then r.start else if v ≥ r.end_ then r.end_ else v

/-- A `te::AutomatableParameter`: the value range the engine declares for it and its
current value. -/
structure AutomatableParameter where
  valueRange : NormalisableRange
  currentValue : ℚ
deriving DecidableEq

/-- Engine contract of `getCurrentValue()`: reads the current value. -/
def AutomatableParameter.getCurrentValue (p : AutomatableParameter) : ℚ := p.currentValue

/-- Modelled from the spec: the engine's `AutomatableParameter::setParameter`.  Spec 3 and
7: the parameter is a value in its bounded range, an out-of-range value is clamped at the
API boundary, never stored as it is.  The bounds are those of `valueRange`. -/
def AutomatableParameter.setParameter (p : AutomatableParameter) (value : ℚ) :
    AutomatableParameter :=
  { p with currentValue := jlimit p.valueRange.start p.valueRange.end_ value }

/-- Round to the nearest integer, a tie going to the even neighbour (the default rounding of
IEEE arithmetic). -/
def roundHalfEven (x : ℚ) : ℤ :=
  let f := ⌊x⌋
  let r := x - f
  if r < 1 / 2 then f else if 1 / 2 < r then f + 1 else if f % 2 = 0 then f else f + 1

/-- Language contract of `static_cast<float>` on a `double`: the single-precision value nearest
to `q`, ties to even, with 24 significant bits and no exponent below -126 (so the spacing of
the values near `q` is `2 ^ (e - 23)`, `e` the binary exponent of `q`).  A value beyond the
float range becomes an infinity in C++; here it stays a large finite value, and the clamp
that follows the cast treats both alike.  Not-a-number is not a value here. -/
def staticCastFloat (q : ℚ) : ℚ :=
  if q = 0 then 0 else
    let e : ℤ := max (Int.log 2 |q|) (-126)
    let ulp : ℚ := 2 ^ (e - 23)
    roundHalfEven (q / ulp) * ulp

namespace ParameterValueSource

/-- Embeds `ParameterValueSource::getValue`. -/
def getValue (param : AutomatableParameter) : ℚ := param.getCurrentValue

/-- Embeds `ParameterValueSource::setValue`: casts the new value to `float` and hands it to
the parameter, `param->setParameter (static_cast<float> (newValue), ...)`. -/
def setValue (param : AutomatableParameter) (newValue : ℚ) : AutomatableParameter :=
  param.setParameter (staticCastFloat newValue)

end ParameterValueSource

/-- A `juce::Slider` as far as range and value go.  Its value object either holds a value
of its own or refers to a `ParameterValueSource`; in the latter case the value is the
parameter's, which the operations take as an argument and return. -/
structure Slider where
  normRange : NormalisableRange
  ownValue : ℚ
  refersToParameter : Bool
  doubleClickReturnEnabled : Bool
  doubleClickReturnValue : ℚ
deriving DecidableEq

/-- A default-constructed slider: range `[0, 10]`, value 0, no double-click value. -/
def Slider.new : Slider :=
  { normRange := ⟨0, 10, 0, .factor 1, false⟩, ownValue := 0, refersToParameter := false,
    doubleClickReturnEnabled := false, doubleClickReturnValue := 0 }

/-- Toolkit contract of `Slider::getValue`: reads the value object. -/
def Slider.getValue (s : Slider) (param : AutomatableParameter) : ℚ :=
  if s.refersToParameter then ParameterValueSource.getValue param else s.ownValue

/-- Toolkit contract of `Slider::setValue`: the new value is restricted to the slider's range and
written to the value object. -/
def Slider.setValue (s : Slider) (param : AutomatableParameter) (newValue : ℚ) :
    Slider × AutomatableParameter :=
  let newValue := s.normRange.snapToLegalValue newValue
  if s.refersToParameter then (s, ParameterValueSource.setValue param newValue)
  else ({ s with ownValue := newValue }, param)

/-- Toolkit contract of `Slider::setNormalisableRange`: installs the range and re-restricts the
value. -/
def Slider.setNormalisableRange (s : Slider) (param : AutomatableParameter)
    (newRange : NormalisableRange) : Slider × AutomatableParameter :=
  let s := { s with normRange := newRange }
  s.setValue param (s.getValue param)

/-- Toolkit contract of `Slider::setRange (newMin, newMax, newInt = 0)`: new limits and interval,
the skew kept, then the value re-restricted. -/
def Slider.setRange (s : Slider) (param : AutomatableParameter) (newMin newMax : ℚ)
    (newInt : ℚ) : Slider × AutomatableParameter :=
  let s := { s with normRange := ⟨newMin, newMax, newInt, s.normRange.skew, false⟩ }
  s.setValue param (s.getValue param)

/-- Toolkit contract of `Slider::setSkewFactorFromMidPoint`: the skew is recomputed from the
mid point by `setSkewForCentre`, the limits stay.  The call is within the toolkit's contract
when the range `acceptsCentre` the mid point. -/
def Slider.setSkewFactorFromMidPoint (s : Slider) (sliderValueToShowAtMidPoint : ℚ) : Slider :=
  { s with normRange := { s.normRange with
      skew := .fromMidPoint s.normRange.start s.normRange.end_ sliderValueToShowAtMidPoint,
      symmetricSkew := false } }

/-- Toolkit contract of `Slider::setDoubleClickReturnValue`: a setter. -/
def Slider.setDoubleClickReturnValue (s : Slider) (shouldDoubleClickBeEnabled : Bool)
    (valueToSetOnDoubleClick : ℚ) : Slider :=
  { s with doubleClickReturnEnabled := shouldDoubleClickBeEnabled,
           doubleClickReturnValue := valueToSetOnDoubleClick }

/-- Embeds `bindSliderToParameter`: the slider takes the parameter's value range, then its
value object is made to refer to a `ParameterValueSource` of the parameter. -/
def bindSliderToParameter (s : Slider) (p : AutomatableParameter) :
    Slider × AutomatableParameter :=
  let v := p.valueRange
  let range : NormalisableRange := ⟨v.start, v.end_, v.interval, v.skew, v.symmetricSkew⟩
  let (s, p) := s.setNormalisableRange p range
  ({ s with refersToParameter := true }, p)

/-! ## `class MainComponent` of MainComponent.h -/

/-- A key press: its key code. -/
structure KeyPress where
  keyCode : ℤ
deriving DecidableEq

/-- Toolkit contract of `KeyPress::spaceKey`, the toolkit's code of the space bar (the character
`' '`). -/
def KeyPress.spaceKey : ℤ := 32

/-- Toolkit contract of `KeyPress::getKeyCode`: the key code. -/
def KeyPress.getKeyCode (k : KeyPress) : ℤ := k.keyCode

/-- The members of `MainComponent` that its operations read or write.  `engine` is
`edit.engine`, `transport` is `edit.transport`; `pitchShiftParam` is the parameter of the
pitch-shift plugin that the slider is bound to. -/
structure MainComponent where
  edit : Edit
  thumbnail : Thumbnail
  pitchShiftSlider : Slider
  pitchShiftParam : AutomatableParameter
  loaded : Bool
deriving DecidableEq

namespace MainComponent

/-- Engine contract of `PitchShiftPlugin::xmlTypeName`: the type name of the plugin. -/
def pitchShiftXmlTypeName : String := "pitchShifter"

/-- The constructor, as far as it builds state: an empty edit with a stopped transport, the
pitch-shift plugin inserted at index 0 of the first track, the slider bound to the plugin's
parameter `semitones up` and then set up, `loaded = false`.  The engine, and the parameter
as the engine declares it, are the arguments.  Calls that only change appearance (sizes,
images, colours, text box, rotary style) carry no state here. -/
def new (engine : Engine) (semitonesUp : AutomatableParameter) : MainComponent :=
  let edit : Edit :=
    { engine := engine, tracks := [], nextItemID := 0,
      transport := { playing := false, position := 0, loopRange := ⟨0, 0⟩, looping := false,
                     userDragging := false } }
  let thumbnail := Thumbnail.new
  let pitchShiftSlider := Slider.new
  -- Setup pitch shifting.
  let edit :=
    match Helpers.getOrInsertAudioTrackAt edit 0 with
    | (some track, edit) =>
      edit.setTrack 0 { track with pluginList := pitchShiftXmlTypeName :: track.pluginList }
    | (Option.none, edit) => edit
  let pitchShiftParam := semitonesUp
  let (pitchShiftSlider, pitchShiftParam) := bindSliderToParameter pitchShiftSlider pitchShiftParam
  let pitchShiftSlider := pitchShiftSlider.setSkewFactorFromMidPoint 0
  let (pitchShiftSlider, pitchShiftParam) := pitchShiftSlider.setRange pitchShiftParam (-4) 4 0
  let (pitchShiftSlider, pitchShiftParam) := pitchShiftSlider.setValue pitchShiftParam 0
  let pitchShiftSlider := pitchShiftSlider.setDoubleClickReturnValue true 0
  { edit := edit, thumbnail := thumbnail, pitchShiftSlider := pitchShiftSlider,
    pitchShiftParam := pitchShiftParam, loaded := false }

/-- Embeds `MainComponent::setFile`: loads the file as a clip; on success configures the clip,
loops the transport around it and shows its playback file, otherwise shows no file; then
sets `loaded` from `f.exists()` and stops the transport. -/
def setFile (s : MainComponent) (f : File) : MainComponent :=
  let s :=
    match Helpers.loadAudioFileAsClip s.edit f with
    | (some clip, edit) =>
      let edit := edit.modifyClip clip.itemID (fun c => c.setAutoTempo false)
      let edit := edit.modifyClip clip.itemID (fun c => c.setAutoPitch false)
      let edit := edit.modifyClip clip.itemID (fun c => c.setTimeStretchMode .melodyne)
      let (clip, edit) := Helpers.loopAroundClip edit clip
      { s with edit := edit, thumbnail := s.thumbnail.setFile clip.getPlaybackFile }
    | (Option.none, edit) =>
      { s with edit := edit, thumbnail := s.thumbnail.setFile AudioFile.none }
  -- If the file exists then it was loaded, update loaded boolean accordingly.
  let s := if f.exists s.edit.engine then { s with loaded := true }
           else { s with loaded := false }
  { s with edit := { s.edit with transport := s.edit.transport.stop false false } }

/-- Embeds `MainComponent::noFileChosen`: clears the thumbnail's file and resets `loaded`. -/
def noFileChosen (s : MainComponent) : MainComponent :=
  let (thumbnail, engine) := s.thumbnail.clearFile s.edit.engine
  let s := { s with thumbnail := thumbnail, edit := { s.edit with engine := engine } }
  { s with loaded := false }

/-- The callback that `loadFileButton.onClick` hands to the file browser:
`f.exists() ? setFile (f) : noFileChosen()`. -/
def fileChosenCallback (s : MainComponent) (f : File) : MainComponent :=
  if f.exists s.edit.engine then s.setFile f else s.noFileChosen

/-- Embeds `playPauseButton.onClick`: `if (loaded) Helpers::togglePlay (edit)`. -/
def playPauseButton_onClick (s : MainComponent) : MainComponent :=
  if s.loaded then { s with edit := Helpers.togglePlay s.edit } else s

/-- Embeds `MainComponent::keyPressed`: the space bar triggers the play/pause button; the
return value is always `false`. -/
def keyPressed (s : MainComponent) (k : KeyPress) : Bool × MainComponent :=
  let s := if k.getKeyCode = KeyPress.spaceKey then s.playPauseButton_onClick else s
  (false, s)

end MainComponent

/-! ## Concrete states

A disk with one corrupt file and one five-second audio file, the pitch parameter as the
engine declares it (two octaves either way), and application states built from them. -/

/-- A disk holding `broken.wav`, which does not decode, and `a.wav`, five seconds of audio. -/
def exampleEngine : Engine :=
  { disk := [⟨"broken.wav", Option.none⟩, ⟨"a.wav", some 5⟩], insertWaveClipSucceeds := true }

/-- The pitch parameter with a declared range of 24 semitones either way, at 0. -/
def engineSemitones : AutomatableParameter :=
  { valueRange := ⟨-24, 24, 0, .factor 1, false⟩, currentValue := 0 }

/-- The pitch parameter as the spec declares it: range `[-4, 4]`, default 0. -/
def specSemitones : AutomatableParameter :=
  { valueRange := ⟨-4, 4, 0, .factor 1, false⟩, currentValue := 0 }

/-- The application right after construction. -/
def freshApp : MainComponent := MainComponent.new exampleEngine engineSemitones

/-- The application after `a.wav` has been loaded. -/
def loadedApp : MainComponent := freshApp.setFile ⟨"a.wav"⟩

/-- The application playing `a.wav`, three seconds in. -/
def playingApp : MainComponent :=
  let s := loadedApp.playPauseButton_onClick
  { s with edit := { s.edit with transport := { s.edit.transport with position := 3 } } }

/-- A thumbnail 100 pixels wide. -/
def wideThumbnail : Thumbnail := { Thumbnail.new with width := 100 }

/-- A stopped transport looping over `[0, 10]`. -/
def tenSecondLoop : TransportControl :=
  { playing := false, position := 0, loopRange := ⟨0, 10⟩, looping := true,
    userDragging := false }

end Apollon

/-! ## Supporting lemmas -/

namespace Apollon
open MainComponent Helpers

/-- A load leaves the engine, and so the disk, as it was. -/
theorem loadAudioFileAsClip_engine (edit : Edit) (file : File) :
    (loadAudioFileAsClip edit file).2.engine = edit.engine := by
  unfold loadAudioFileAsClip getOrInsertAudioTrackAt
  simp only [Edit.ensureNumberOfAudioTracks]
  split
  · rename_i track edit' h
    simp only [Prod.mk.injEq] at h
    obtain ⟨_, rfl⟩ := h
    split
    · split <;> simp [Edit.setTrack]
    · rfl
  · rename_i edit' h
    simp only [Prod.mk.injEq] at h
    obtain ⟨_, rfl⟩ := h
    rfl

/-- After `setFile`, `loaded` says whether the file exists on disk. -/
theorem setFile_loaded (s : MainComponent) (f : File) :
    (s.setFile f).loaded = f.exists s.edit.engine := by
  have h := loadAudioFileAsClip_engine s.edit f
  unfold setFile
  rcases hl : loadAudioFileAsClip s.edit f with ⟨_ | clip, edit⟩
  · rw [hl] at h
    simp only at h
    simp only [h]
    cases File.exists s.edit.engine f <;> simp
  · rw [hl] at h
    simp only at h
    simp only [loopAroundClip, Edit.modifyClip, h]
    cases File.exists s.edit.engine f <;> simp

/-- Every member of a list is at most its running maximum. -/
theorem le_foldr_max (l : List ℚ) (x : ℚ) (hx : x ∈ l) : x ≤ l.foldr max 0 := by
  induction l with
  | nil => cases hx
  | cons a t ih =>
    simp only [List.foldr_cons]
    rcases List.mem_cons.mp hx with rfl | h
    · exact le_max_left _ _
    · exact le_trans (ih h) (le_max_right _ _)

/-- The running maximum from 0 is not negative. -/
theorem foldr_max_nonneg (l : List ℚ) : 0 ≤ l.foldr max 0 := by
  induction l with
  | nil => simp
  | cons a t ih => exact le_trans ih (le_max_right _ _)

/-- The length of an edit is not negative. -/
theorem Edit.getLength_nonneg (e : Edit) : 0 ≤ e.getLength := foldr_max_nonneg _

/-- Every clip of an edit ends within the length of the edit. -/
theorem Edit.end_le_getLength (e : Edit) (track : AudioTrack) (c : WaveAudioClip)
    (ht : track ∈ e.tracks) (hc : c ∈ track.clips) : c.position.time.end_ ≤ e.getLength := by
  unfold Edit.getLength
  refine le_trans ?_ (le_foldr_max _ _ (List.mem_map.mpr ⟨track, ht, rfl⟩))
  exact le_foldr_max _ _ (List.mem_map.mpr ⟨c, hc, rfl⟩)

/-- Changing a clip without moving it keeps the length of the edit. -/
theorem Edit.getLength_modifyClip (e : Edit) (id : Nat) (f : WaveAudioClip → WaveAudioClip)
    (hf : ∀ c, (f c).position = c.position) : (e.modifyClip id f).getLength = e.getLength := by
  unfold Edit.getLength Edit.modifyClip
  simp only [List.map_map]
  congr 1
  apply List.map_congr_left
  intro t _
  simp only [Function.comp]
  congr 1
  rw [List.map_map]
  apply List.map_congr_left
  intro c _
  simp only [Function.comp]
  split
  · rw [hf]
  · rfl

/-- Clamping a value that is already inside the bounds returns it. -/
theorem jlimit_of_mem (lo hi v : ℚ) (h1 : lo ≤ v) (h2 : v ≤ hi) : jlimit lo hi v = v := by
  unfold jlimit
  rw [if_neg (not_lt.mpr h1), if_neg (not_lt.mpr h2)]

/-- A clamped value lies inside the bounds. -/
theorem jlimit_mem (lo hi v : ℚ) (h : lo ≤ hi) : lo ≤ jlimit lo hi v ∧ jlimit lo hi v ≤ hi := by
  unfold jlimit
  split
  · exact ⟨le_refl _, h⟩
  · split
    · exact ⟨h, le_refl _⟩
    · constructor
      · exact not_lt.mp ‹_›
      · exact not_lt.mp ‹_›

/-- What a successful load leaves behind: the clip sits at `[0, length]` with offset 0 on
the first track of the resulting edit, and the engine is the one of before. -/
theorem loadAudioFileAsClip_some (edit edit' : Edit) (file : File) (clip : WaveAudioClip)
    (h : loadAudioFileAsClip edit file = (some clip, edit')) :
    clip.position = ⟨⟨0, AudioFile.getLength edit.engine ⟨file⟩⟩, 0⟩ ∧
    AudioFile.isValid edit.engine ⟨file⟩ = true ∧
    edit.engine.insertWaveClipSucceeds = true ∧
    ∃ track, track ∈ edit'.tracks ∧ clip ∈ track.clips := by
  unfold loadAudioFileAsClip getOrInsertAudioTrackAt at h
  simp only [Edit.ensureNumberOfAudioTracks] at h
  split at h
  · rename_i track e1 h1
    simp only [Prod.mk.injEq] at h1
    obtain ⟨hget, rfl⟩ := h1
    split at h
    · rename_i hvalid
      simp only [AudioTrack.insertWaveClip] at h
      by_cases hok : edit.engine.insertWaveClipSucceeds = true
      · simp only [hok, if_true, Bool.false_eq_true, if_false, Prod.mk.injEq,
          Option.some.injEq] at h
        obtain ⟨rfl, rfl⟩ := h
        refine ⟨rfl, hvalid, hok,
          ⟨(removeAllClips track).clips ++ [_], (removeAllClips track).pluginList⟩, ?_,
          List.mem_append_right _ (List.mem_singleton.mpr rfl)⟩
        simp only [Edit.setTrack]
        have hlen : 0 < (edit.tracks ++ List.replicate (0 + 1 - edit.tracks.length)
            AudioTrack.empty).length := by
          rcases List.getElem?_eq_some.mp hget with ⟨hl, _⟩
          exact hl
        exact List.mem_iff_getElem.mpr ⟨0, by simpa using hlen, by simp⟩
      · simp [hok] at h
    · simp at h
  · simp at h

/-- The first track is always there after `getOrInsertAudioTrackAt edit 0`. -/
theorem getOrInsertAudioTrackAt_zero (edit : Edit) :
    ∃ track, getOrInsertAudioTrackAt edit 0 = (some track, edit.ensureNumberOfAudioTracks 1) := by
  unfold getOrInsertAudioTrackAt
  simp only [Edit.ensureNumberOfAudioTracks]
  cases h : edit.tracks with
  | nil => exact ⟨AudioTrack.empty, by simp [List.replicate]⟩
  | cons t ts => exact ⟨t, by simp⟩

/-- A load returns a clip exactly when the file is valid audio and the engine accepts the
insertion. -/
theorem loadAudioFileAsClip_isSome (edit : Edit) (file : File) :
    (loadAudioFileAsClip edit file).1.isSome =
      (AudioFile.isValid edit.engine ⟨file⟩ && edit.engine.insertWaveClipSucceeds) := by
  obtain ⟨track, ht⟩ := getOrInsertAudioTrackAt_zero edit
  unfold loadAudioFileAsClip
  rw [ht]
  simp only [Edit.ensureNumberOfAudioTracks, AudioTrack.insertWaveClip]
  cases hv : AudioFile.isValid edit.engine ⟨file⟩ <;>
    cases hok : edit.engine.insertWaveClipSucceeds <;> simp

/-- The transport that `setFile` leaves behind when the load returned a clip. -/
theorem setFile_transport_of_some (s : MainComponent) (f : File) (clip : WaveAudioClip)
    (edit' : Edit) (h : loadAudioFileAsClip s.edit f = (some clip, edit')) :
    (s.setFile f).edit.transport =
      { playing := false, position := 0,
        loopRange := ⟨jlimit 0 edit'.getLength clip.position.time.start,
                      jlimit 0 edit'.getLength clip.position.time.end_⟩,
        looping := true, userDragging := edit'.transport.userDragging } := by
  have hlen : (((edit'.modifyClip clip.itemID (fun c => c.setAutoTempo false)).modifyClip
      clip.itemID (fun c => c.setAutoPitch false)).modifyClip clip.itemID
      (fun c => c.setTimeStretchMode .melodyne)).getLength = edit'.getLength := by
    rw [Edit.getLength_modifyClip _ _ (fun c => c.setTimeStretchMode .melodyne) (fun _ => rfl),
      Edit.getLength_modifyClip _ _ (fun c => c.setAutoPitch false) (fun _ => rfl),
      Edit.getLength_modifyClip _ _ (fun c => c.setAutoTempo false) (fun _ => rfl)]
  unfold setFile
  simp only [h, loopAroundClip, hlen]
  split <;>
    simp [TransportControl.stop, TransportControl.play, TransportControl.setLoopRange,
      Edit.getTransport, WaveAudioClip.getEditTimeRange, Edit.modifyClip]

/-- The transport that `setFile` leaves behind when the load returned no clip. -/
theorem setFile_transport_of_none (s : MainComponent) (f : File)
    (edit' : Edit) (h : loadAudioFileAsClip s.edit f = (Option.none, edit')) :
    (s.setFile f).edit.transport = { edit'.transport with playing := false } := by
  unfold setFile
  simp only [h]
  split <;> simp [TransportControl.stop]

/-- Rounding gives the floor or the integer after it. -/
theorem roundHalfEven_floor_or (x : ℚ) : roundHalfEven x = ⌊x⌋ ∨ roundHalfEven x = ⌊x⌋ + 1 := by
  unfold roundHalfEven
  simp only
  split
  · exact Or.inl rfl
  · split
    · exact Or.inr rfl
    · split
      · exact Or.inl rfl
      · exact Or.inr rfl

/-- Rounding leaves an integer as it is. -/
theorem roundHalfEven_intCast (k : ℤ) : roundHalfEven (k : ℚ) = k := by
  unfold roundHalfEven
  simp

/-- Rounding does not pass an integer above the value. -/
theorem roundHalfEven_le (x : ℚ) (k : ℤ) (h : x ≤ k) : roundHalfEven x ≤ k := by
  rcases eq_or_lt_of_le h with h | h
  · rw [h, roundHalfEven_intCast]
  · have hf : ⌊x⌋ < k := Int.floor_lt.mpr h
    rcases roundHalfEven_floor_or x with h1 | h1 <;> omega

/-- Rounding does not pass an integer below the value. -/
theorem le_roundHalfEven (x : ℚ) (k : ℤ) (h : (k : ℚ) ≤ x) : k ≤ roundHalfEven x := by
  have hf : k ≤ ⌊x⌋ := Int.le_floor.mpr h
  rcases roundHalfEven_floor_or x with h1 | h1 <;> omega

/-- Zero is a float. -/
theorem staticCastFloat_zero : staticCastFloat 0 = 0 := by
  simp [staticCastFloat]

/-- A value past the middle of two integers rounds to the upper one. -/
theorem roundHalfEven_up (x : ℚ) (f : ℤ) (h1 : (f : ℚ) + 1 / 2 < x) (h2 : x < f + 1) :
    roundHalfEven x = f + 1 := by
  have hf : ⌊x⌋ = f := Int.floor_eq_iff.mpr ⟨by linarith, h2⟩
  unfold roundHalfEven
  simp only [hf]
  rw [if_neg (by linarith), if_pos (by linarith)]

/-- The binary exponent of a positive value between two powers of two. -/
theorem log_two_eq (q : ℚ) (e : ℤ) (h1 : (2 : ℚ) ^ e ≤ q) (h2 : q < 2 ^ (e + 1)) :
    Int.log 2 q = e := by
  have hq : 0 < q := lt_of_lt_of_le (zpow_pos (by norm_num) e) h1
  have a : e ≤ Int.log 2 q := (Int.zpow_le_iff_le_log (by norm_num) hq).mp (by exact_mod_cast h1)
  have b : Int.log 2 q < e + 1 :=
    (Int.lt_zpow_iff_log_lt (by norm_num) hq).mp (by exact_mod_cast h2)
  omega

/-- The cast of a value whose binary exponent and rounded significand are known. -/
theorem staticCastFloat_eq (q : ℚ) (e n : ℤ) (h1 : (2 : ℚ) ^ e ≤ |q|) (h2 : |q| < 2 ^ (e + 1))
    (h3 : -126 ≤ e) (hn : roundHalfEven (q / 2 ^ (e - 23)) = n) :
    staticCastFloat q = n * 2 ^ (e - 23) := by
  have hq : q ≠ 0 := by
    intro h
    rw [h, abs_zero] at h1
    exact absurd h1 (not_le.mpr (zpow_pos (by norm_num) e))
  unfold staticCastFloat
  rw [if_neg hq]
  simp only [log_two_eq |q| e h1 h2, max_eq_left h3, hn]

/-- The value 4 is a float. -/
theorem staticCastFloat_four : staticCastFloat 4 = 4 := by
  rw [staticCastFloat_eq 4 2 8388608 (by norm_num) (by norm_num) (by norm_num)
    (by
      have : (4 : ℚ) / 2 ^ ((2 : ℤ) - 23) = ((8388608 : ℤ) : ℚ) := by norm_num
      rw [this, roundHalfEven_intCast])]
  norm_num

/-- The value -4 is a float. -/
theorem staticCastFloat_neg_four : staticCastFloat (-4) = -4 := by
  rw [staticCastFloat_eq (-4) 2 (-8388608) (by norm_num) (by norm_num) (by norm_num)
    (by
      have : (-4 : ℚ) / 2 ^ ((2 : ℤ) - 23) = ((-8388608 : ℤ) : ℚ) := by norm_num
      rw [this, roundHalfEven_intCast])]
  norm_num

/-- The float nearest to one tenth is `13421773 / 2 ^ 27`, a little above it. -/
theorem staticCastFloat_tenth : staticCastFloat (1 / 10) = 13421773 / 134217728 := by
  rw [staticCastFloat_eq (1 / 10) (-4) 13421773 (by norm_num [abs_of_pos])
    (by norm_num [abs_of_pos]) (by norm_num)
    (by
      have h := roundHalfEven_up ((1 : ℚ) / 10 / 2 ^ ((-4 : ℤ) - 23)) 13421772
        (by norm_num) (by norm_num)
      rw [h]; norm_num)]
  norm_num

/-- A value between -4 and 4 stays between -4 and 4 when cast to float. -/
theorem staticCastFloat_mem (q : ℚ) (h1 : -4 ≤ q) (h2 : q ≤ 4) :
    -4 ≤ staticCastFloat q ∧ staticCastFloat q ≤ 4 := by
  by_cases hq : q = 0
  · subst hq
    rw [staticCastFloat_zero]
    norm_num
  · have habs : 0 < |q| := abs_pos.mpr hq
    have habs4 : |q| ≤ 4 := abs_le.mpr ⟨h1, h2⟩
    have hlog : Int.log 2 |q| ≤ 2 := by
      have h := Int.log_mono_right (b := 2) habs habs4
      have h4 : Int.log 2 (4 : ℚ) = 2 := log_two_eq 4 2 (by norm_num) (by norm_num)
      rw [h4] at h
      exact h
    have he : max (Int.log 2 |q|) (-126) ≤ 2 := max_le hlog (by norm_num)
    unfold staticCastFloat
    rw [if_neg hq]
    simp only
    generalize max (Int.log 2 |q|) (-126) = e at he ⊢
    have hulp : (0 : ℚ) < 2 ^ (e - 23) := zpow_pos (by norm_num) _
    obtain ⟨m, hm⟩ : ∃ m : ℕ, 25 - e = (m : ℤ) := ⟨(25 - e).toNat, by omega⟩
    have hk : (((2 : ℤ) ^ m : ℤ) : ℚ) * 2 ^ (e - 23) = 4 := by
      push_cast
      rw [← zpow_natCast, ← hm, ← zpow_add₀ (by norm_num : (2 : ℚ) ≠ 0)]
      have : 25 - e + (e - 23) = 2 := by omega
      rw [this]
      norm_num
    have hdiv : (4 : ℚ) / 2 ^ (e - 23) = (((2 : ℤ) ^ m : ℤ) : ℚ) := by
      rw [← hk, mul_div_assoc, div_self (ne_of_gt hulp), mul_one]
    have hup : roundHalfEven (q / 2 ^ (e - 23)) ≤ (2 : ℤ) ^ m := by
      apply roundHalfEven_le
      rw [← hdiv]
      exact div_le_div_of_nonneg_right h2 (le_of_lt hulp)
    have hdown : -((2 : ℤ) ^ m) ≤ roundHalfEven (q / 2 ^ (e - 23)) := by
      apply le_roundHalfEven
      rw [Int.cast_neg, ← hdiv, ← neg_div]
      exact div_le_div_of_nonneg_right h1 (le_of_lt hulp)
    constructor
    · calc (-4 : ℚ) = ((-((2 : ℤ) ^ m) : ℤ) : ℚ) * 2 ^ (e - 23) := by
            rw [Int.cast_neg, neg_mul, hk]
        _ ≤ (roundHalfEven (q / 2 ^ (e - 23)) : ℚ) * 2 ^ (e - 23) :=
            mul_le_mul_of_nonneg_right (by exact_mod_cast hdown) hulp.le
    · calc (roundHalfEven (q / 2 ^ (e - 23)) : ℚ) * 2 ^ (e - 23)
          ≤ (((2 : ℤ) ^ m : ℤ) : ℚ) * 2 ^ (e - 23) :=
            mul_le_mul_of_nonneg_right (by exact_mod_cast hup) hulp.le
        _ = 4 := hk

/-- The slider and the parameter as the constructor leaves them. -/
theorem new_pitchShift (engine : Engine) (semitonesUp : AutomatableParameter) :
    (MainComponent.new engine semitonesUp).pitchShiftSlider =
      { normRange := ⟨-4, 4, 0,
          .fromMidPoint semitonesUp.valueRange.start semitonesUp.valueRange.end_ 0, false⟩,
        ownValue := semitonesUp.valueRange.snapToLegalValue 0,
        refersToParameter := true,
        doubleClickReturnEnabled := true, doubleClickReturnValue := 0 } ∧
    (MainComponent.new engine semitonesUp).pitchShiftParam =
      { valueRange := semitonesUp.valueRange,
        currentValue := jlimit semitonesUp.valueRange.start semitonesUp.valueRange.end_ 0 } := by
  have h0 : NormalisableRange.snapToLegalValue
      ⟨-4, 4, 0, .fromMidPoint semitonesUp.valueRange.start semitonesUp.valueRange.end_ 0, false⟩ 0
      = 0 := by
    norm_num [NormalisableRange.snapToLegalValue]
  constructor
  · simp [MainComponent.new, bindSliderToParameter, Slider.setNormalisableRange, Slider.setValue,
      Slider.getValue, Slider.new, Slider.setRange, Slider.setSkewFactorFromMidPoint,
      Slider.setDoubleClickReturnValue]
  · simp [MainComponent.new, bindSliderToParameter, Slider.setNormalisableRange, Slider.setValue,
      Slider.getValue, Slider.new, Slider.setRange, Slider.setSkewFactorFromMidPoint,
      Slider.setDoubleClickReturnValue, ParameterValueSource.setValue,
      ParameterValueSource.getValue, AutomatableParameter.setParameter, h0,
      staticCastFloat_zero]

/-- On the range `[-4, 4]` without interval, restricting a value is clamping it. -/
theorem snapToLegalValue_pm4 (sk : Skew) (b : Bool) (v : ℚ) :
    NormalisableRange.snapToLegalValue ⟨-4, 4, 0, sk, b⟩ v = jlimit (-4) 4 v := by
  unfold NormalisableRange.snapToLegalValue jlimit
  simp only [gt_iff_lt, lt_self_iff_false, if_false]
  by_cases h1 : v < -4
  · simp [h1, le_of_lt h1]
  · by_cases h2 : v = -4
    · subst h2; norm_num
    · have h3 : ¬ v ≤ -4 := fun h => h1 (lt_of_le_of_ne h h2)
      by_cases h4 : 4 < v
      · have : v ≥ 4 := le_of_lt h4
        simp [h1, h3, h4, this]
      · by_cases h5 : v = 4
        · subst h5; norm_num
        · have h6 : ¬ v ≥ 4 := fun h => h4 (lt_of_le_of_ne h (Ne.symm h5))
          simp [h1, h3, h4, h6]

/-- A request to the pitch slider as the constructor leaves it: the value is clamped to
`[-4, 4]` by the slider, cast to float by the value binding, and clamped to its declared
range by the parameter. -/
theorem pitchShiftSlider_setValue (engine : Engine) (semitonesUp p : AutomatableParameter)
    (w : ℚ) :
    (MainComponent.new engine semitonesUp).pitchShiftSlider.setValue p w =
      ((MainComponent.new engine semitonesUp).pitchShiftSlider,
        { p with currentValue :=
            jlimit p.valueRange.start p.valueRange.end_ (staticCastFloat (jlimit (-4) 4 w)) }) := by
  rw [(new_pitchShift engine semitonesUp).1]
  simp only [Slider.setValue, if_true, snapToLegalValue_pm4, ParameterValueSource.setValue,
    AutomatableParameter.setParameter]

/-- When the declared range contains `[-4, 4]`, the parameter's own clamp leaves the cast of
a value clamped to `[-4, 4]` as it is. -/
theorem jlimit_staticCastFloat_jlimit (lo hi w : ℚ) (hlo : lo ≤ -4) (hhi : 4 ≤ hi) :
    jlimit lo hi (staticCastFloat (jlimit (-4) 4 w)) = staticCastFloat (jlimit (-4) 4 w) := by
  have hm := jlimit_mem (-4) 4 w (by norm_num)
  have hf := staticCastFloat_mem _ hm.1 hm.2
  exact jlimit_of_mem _ _ _ (le_trans hlo hf.1) (le_trans hf.2 hhi)

/-! ## The claims -/

/-- Claim C1, evaluated on the code: `broken.wav` exists on disk but does not decode, so
`loadAudioFileAsClip` returns no clip for it, and yet `setFile` leaves `loaded = true`,
because `loaded` is set from `f.exists()`. -/
theorem setFile_loaded_true_for_undecodable_file :
    File.exists freshApp.edit.engine ⟨"broken.wav"⟩ = true ∧
    AudioFile.isValid freshApp.edit.engine ⟨⟨"broken.wav"⟩⟩ = false ∧
    (loadAudioFileAsClip freshApp.edit ⟨"broken.wav"⟩).1 = Option.none ∧
    (freshApp.setFile ⟨"broken.wav"⟩).loaded = true := by decide

/-- Claim C2 as stated fails: with `a.wav` loaded, the file-picker callback on the
non-existent file of a cancelled dialog turns `loaded` from true to false and hides the
visible cursor, so the state afterwards is not the state before. -/
theorem noFileChosen_resets_loaded_and_hides_cursor :
    File.exists loadedApp.edit.engine ⟨""⟩ = false ∧
    loadedApp.loaded = true ∧
    (loadedApp.fileChosenCallback ⟨""⟩).loaded = false ∧
    loadedApp.thumbnail.cursorVisible = true ∧
    (loadedApp.fileChosenCallback ⟨""⟩).thumbnail.cursorVisible = false ∧
    loadedApp.fileChosenCallback ⟨""⟩ ≠ loadedApp := by decide

/-- Claim C2, amended: when the file-picker callback receives a file that does not exist,
`noFileChosen` runs; the transport (playing flag, position, loop range), the tracks, the
pitch parameter and the file the thumbnail refers to are unchanged, while `loaded` is false
and the cursor is hidden afterwards. -/
theorem fileChosenCallback_missing_file (s : MainComponent) (f : File)
    (h : f.exists s.edit.engine = false) :
    s.fileChosenCallback f = s.noFileChosen ∧
    (s.fileChosenCallback f).edit.transport = s.edit.transport ∧
    (s.fileChosenCallback f).edit.tracks = s.edit.tracks ∧
    (s.fileChosenCallback f).pitchShiftParam = s.pitchShiftParam ∧
    (s.fileChosenCallback f).thumbnail.file = s.thumbnail.file ∧
    (s.fileChosenCallback f).loaded = false ∧
    (s.fileChosenCallback f).thumbnail.cursorVisible = false := by
  simp [fileChosenCallback, h, noFileChosen, Thumbnail.clearFile]

/-- Witness for C2 amended: `missing.wav` is not on disk; after the callback the transport of
the loaded application is as before and `loaded` is false. -/
theorem fileChosenCallback_missing_file_witness :
    File.exists loadedApp.edit.engine ⟨"missing.wav"⟩ = false ∧
    (loadedApp.fileChosenCallback ⟨"missing.wav"⟩).edit.transport = loadedApp.edit.transport ∧
    (loadedApp.fileChosenCallback ⟨"missing.wav"⟩).loaded = false :=
  ⟨by decide, (fileChosenCallback_missing_file loadedApp ⟨"missing.wav"⟩ (by decide)).2.1,
    (fileChosenCallback_missing_file loadedApp ⟨"missing.wav"⟩ (by decide)).2.2.2.2.2.1⟩

/-- Claim C3: `togglePlay` turns Stopped into Playing and Playing into Stopped (the playing
flag is negated), leaves position, loop range and looping flag unchanged, and applied twice
gives back the original edit. -/
theorem togglePlay_two_state (edit : Edit) :
    (togglePlay edit).transport.playing = !edit.transport.playing ∧
    (togglePlay edit).transport.position = edit.transport.position ∧
    (togglePlay edit).transport.loopRange = edit.transport.loopRange ∧
    (togglePlay edit).transport.looping = edit.transport.looping ∧
    togglePlay (togglePlay edit) = edit := by
  obtain ⟨engine, tracks, ⟨playing, position, loopRange, looping, dragging⟩, n⟩ := edit
  cases playing <;>
    simp [togglePlay, Edit.getTransport, TransportControl.isPlaying, TransportControl.play,
      TransportControl.stop]

/-- Claim C4: after `setFile f`, from any state and for any file, the transport is Stopped;
and whenever `loadAudioFileAsClip` returned a clip for `f`, the position is 0. -/
theorem setFile_stops_transport_at_zero (s : MainComponent) (f : File) :
    (s.setFile f).edit.transport.playing = false ∧
    ((loadAudioFileAsClip s.edit f).1.isSome = true →
      (s.setFile f).edit.transport.position = 0) := by
  rcases hl : loadAudioFileAsClip s.edit f with ⟨_ | clip, edit'⟩
  · rw [setFile_transport_of_none s f edit' hl]
    simp
  · rw [setFile_transport_of_some s f clip edit' hl]
    simp

/-- Witness for C4: the application is playing, three seconds in; loading `a.wav` again
returns a clip and leaves the transport Stopped at position 0. -/
theorem setFile_stops_transport_at_zero_witness :
    playingApp.edit.transport.playing = true ∧
    playingApp.edit.transport.position = 3 ∧
    (loadAudioFileAsClip playingApp.edit ⟨"a.wav"⟩).1.isSome = true ∧
    (playingApp.setFile ⟨"a.wav"⟩).edit.transport.playing = false ∧
    (playingApp.setFile ⟨"a.wav"⟩).edit.transport.position = 0 :=
  ⟨by decide, by decide, by decide, (setFile_stops_transport_at_zero playingApp ⟨"a.wav"⟩).1,
    (setFile_stops_transport_at_zero playingApp ⟨"a.wav"⟩).2 (by decide)⟩

/-- Claim C5: for a valid audio file of length `L ≥ 0` whose insertion the engine accepts,
`loadAudioFileAsClip` returns a clip with edit range `[0, L]`, and after `setFile` looping
is on and the loop range is exactly that range, so `0 ≤ start ≤ end ≤ L`. -/
theorem setFile_loop_range_is_clip_range (s : MainComponent) (f : File)
    (hvalid : AudioFile.isValid s.edit.engine ⟨f⟩ = true)
    (hinsert : s.edit.engine.insertWaveClipSucceeds = true)
    (hlen : 0 ≤ AudioFile.getLength s.edit.engine ⟨f⟩) :
    ∃ clip, (loadAudioFileAsClip s.edit f).1 = some clip ∧
      clip.getEditTimeRange = ⟨0, AudioFile.getLength s.edit.engine ⟨f⟩⟩ ∧
      (s.setFile f).edit.transport.looping = true ∧
      (s.setFile f).edit.transport.loopRange = clip.getEditTimeRange ∧
      0 ≤ (s.setFile f).edit.transport.loopRange.start ∧
      (s.setFile f).edit.transport.loopRange.start ≤
        (s.setFile f).edit.transport.loopRange.end_ ∧
      (s.setFile f).edit.transport.loopRange.end_ ≤ AudioFile.getLength s.edit.engine ⟨f⟩ := by
  have hsome := loadAudioFileAsClip_isSome s.edit f
  rw [hvalid, hinsert] at hsome
  rcases hl : loadAudioFileAsClip s.edit f with ⟨_ | clip, edit'⟩
  · rw [hl] at hsome
    simp at hsome
  · obtain ⟨hpos, -, -, track, htrack, hclip⟩ := loadAudioFileAsClip_some s.edit edit' f clip hl
    have hle := Edit.end_le_getLength edit' track clip htrack hclip
    rw [hpos] at hle
    simp only at hle
    have hT := setFile_transport_of_some s f clip edit' hl
    rw [hpos] at hT
    simp only at hT
    rw [jlimit_of_mem 0 _ 0 (le_refl _) (Edit.getLength_nonneg _),
      jlimit_of_mem 0 _ _ hlen hle] at hT
    refine ⟨clip, rfl, ?_, ?_, ?_, ?_, ?_, ?_⟩
    · simp [WaveAudioClip.getEditTimeRange, hpos]
    · rw [hT]
    · rw [hT]; simp [WaveAudioClip.getEditTimeRange, hpos]
    · rw [hT]
    · rw [hT]; exact hlen
    · rw [hT]

/-- Witness for C5: `a.wav` is valid, five seconds long, and insertion is accepted; after
`setFile` the loop range is the clip range `[0, 5]`. -/
theorem setFile_loop_range_is_clip_range_witness :
    AudioFile.isValid freshApp.edit.engine ⟨⟨"a.wav"⟩⟩ = true ∧
    freshApp.edit.engine.insertWaveClipSucceeds = true ∧
    AudioFile.getLength freshApp.edit.engine ⟨⟨"a.wav"⟩⟩ = 5 ∧
    (freshApp.setFile ⟨"a.wav"⟩).edit.transport.loopRange = ⟨0, 5⟩ ∧
    ∃ clip, (loadAudioFileAsClip freshApp.edit ⟨"a.wav"⟩).1 = some clip ∧
      clip.getEditTimeRange = ⟨0, AudioFile.getLength freshApp.edit.engine ⟨⟨"a.wav"⟩⟩⟩ ∧
      (freshApp.setFile ⟨"a.wav"⟩).edit.transport.looping = true ∧
      (freshApp.setFile ⟨"a.wav"⟩).edit.transport.loopRange = clip.getEditTimeRange ∧
      0 ≤ (freshApp.setFile ⟨"a.wav"⟩).edit.transport.loopRange.start ∧
      (freshApp.setFile ⟨"a.wav"⟩).edit.transport.loopRange.start ≤
        (freshApp.setFile ⟨"a.wav"⟩).edit.transport.loopRange.end_ ∧
      (freshApp.setFile ⟨"a.wav"⟩).edit.transport.loopRange.end_ ≤
        AudioFile.getLength freshApp.edit.engine ⟨⟨"a.wav"⟩⟩ :=
  ⟨by decide, by decide, by decide, by decide,
    setFile_loop_range_is_clip_range freshApp ⟨"a.wav"⟩ (by decide) (by decide) (by decide)⟩

/-- Claim C6 as stated fails: on the parameter as the spec declares it (range `[-4, 4]`), a
request of one tenth through the pitch slider stays one tenth when clamped to `[-4, 4]`, but
the value binding casts it to float, and the effective parameter afterwards is
`13421773 / 134217728`, which is not one tenth. -/
theorem pitch_request_rounded_to_float :
    jlimit (-4) 4 (1 / 10) = 1 / 10 ∧
    ((MainComponent.new exampleEngine specSemitones).pitchShiftSlider.setValue
      (MainComponent.new exampleEngine specSemitones).pitchShiftParam (1 / 10)).2.currentValue =
      13421773 / 134217728 ∧
    ((MainComponent.new exampleEngine specSemitones).pitchShiftSlider.setValue
      (MainComponent.new exampleEngine specSemitones).pitchShiftParam (1 / 10)).2.currentValue ≠
      jlimit (-4) 4 (1 / 10) := by
  have hj : jlimit (-4) 4 (1 / 10) = 1 / 10 := by
    apply jlimit_of_mem <;> norm_num
  have hv : ((MainComponent.new exampleEngine specSemitones).pitchShiftSlider.setValue
      (MainComponent.new exampleEngine specSemitones).pitchShiftParam (1 / 10)).2.currentValue =
      13421773 / 134217728 := by
    rw [pitchShiftSlider_setValue, (new_pitchShift exampleEngine specSemitones).2]
    simp only
    rw [jlimit_staticCastFloat_jlimit _ _ _ (by decide) (by decide), hj, staticCastFloat_tenth]
  refine ⟨hj, hv, ?_⟩
  rw [hv, hj]
  norm_num

/-- Claim C6, amended: for every value `v` requested through the pitch slider as the
constructor leaves it and written through its value binding, when the declared range of the
parameter contains `[-4, 4]`, the effective pitch parameter afterwards is `v` clamped to
`[-4, 4]` and then cast to float; it lies in `[-4, 4]` and is `v` clamped itself whenever
that value is a float; in particular requesting +4 and then -10 leaves it at -4. -/
theorem pitch_request_clamped (engine : Engine) (semitonesUp : AutomatableParameter) (v : ℚ)
    (hlo : semitonesUp.valueRange.start ≤ -4) (hhi : 4 ≤ semitonesUp.valueRange.end_) :
    ((MainComponent.new engine semitonesUp).pitchShiftSlider.setValue
      (MainComponent.new engine semitonesUp).pitchShiftParam v).2.currentValue =
      staticCastFloat (jlimit (-4) 4 v) ∧
    -4 ≤ ((MainComponent.new engine semitonesUp).pitchShiftSlider.setValue
      (MainComponent.new engine semitonesUp).pitchShiftParam v).2.currentValue ∧
    ((MainComponent.new engine semitonesUp).pitchShiftSlider.setValue
      (MainComponent.new engine semitonesUp).pitchShiftParam v).2.currentValue ≤ 4 ∧
    (staticCastFloat (jlimit (-4) 4 v) = jlimit (-4) 4 v →
      ((MainComponent.new engine semitonesUp).pitchShiftSlider.setValue
        (MainComponent.new engine semitonesUp).pitchShiftParam v).2.currentValue =
        jlimit (-4) 4 v) ∧
    (((MainComponent.new engine semitonesUp).pitchShiftSlider.setValue
      (MainComponent.new engine semitonesUp).pitchShiftParam 4).1.setValue
      ((MainComponent.new engine semitonesUp).pitchShiftSlider.setValue
        (MainComponent.new engine semitonesUp).pitchShiftParam 4).2 (-10)).2.currentValue
      = -4 := by
  have hp := (new_pitchShift engine semitonesUp).2
  have hv : ((MainComponent.new engine semitonesUp).pitchShiftSlider.setValue
      (MainComponent.new engine semitonesUp).pitchShiftParam v).2.currentValue =
      staticCastFloat (jlimit (-4) 4 v) := by
    rw [pitchShiftSlider_setValue, hp]
    simp only
    rw [jlimit_staticCastFloat_jlimit _ _ _ hlo hhi]
  have hm := jlimit_mem (-4) 4 v (by norm_num)
  have hf := staticCastFloat_mem _ hm.1 hm.2
  refine ⟨hv, ?_, ?_, ?_, ?_⟩
  · rw [hv]; exact hf.1
  · rw [hv]; exact hf.2
  · intro h
    rw [hv, h]
  · rw [pitchShiftSlider_setValue, hp]
    simp only
    rw [pitchShiftSlider_setValue]
    simp only
    rw [jlimit_staticCastFloat_jlimit _ _ _ hlo hhi]
    have h10 : jlimit (-4) 4 (-10) = -4 := by decide
    rw [h10, staticCastFloat_neg_four]

/-- Witness for C6 amended: the spec's range `[-4, 4]` contains `[-4, 4]`; a request of -10
through the slider leaves the parameter inside `[-4, 4]`, and +4 then -10 leaves -4. -/
theorem pitch_request_clamped_witness :
    specSemitones.valueRange.start ≤ -4 ∧ 4 ≤ specSemitones.valueRange.end_ ∧
    -4 ≤ ((MainComponent.new exampleEngine specSemitones).pitchShiftSlider.setValue
      (MainComponent.new exampleEngine specSemitones).pitchShiftParam (-10)).2.currentValue ∧
    (((MainComponent.new exampleEngine specSemitones).pitchShiftSlider.setValue
      (MainComponent.new exampleEngine specSemitones).pitchShiftParam 4).1.setValue
      ((MainComponent.new exampleEngine specSemitones).pitchShiftSlider.setValue
        (MainComponent.new exampleEngine specSemitones).pitchShiftParam 4).2
      (-10)).2.currentValue = -4 :=
  ⟨by decide, by decide,
    (pitch_request_clamped exampleEngine specSemitones (-10) (by decide) (by decide)).2.1,
    (pitch_request_clamped exampleEngine specSemitones (-10) (by decide)
      (by decide)).2.2.2.2⟩

/-- Claim C8 as stated fails: on a thumbnail 100 wide with a loop of length 10, a drag to
`x = -50` assigns position -5 and a drag to `x = 200` assigns position 20, both outside
`[0, 10]`. -/
theorem mouseDrag_position_outside_loop :
    (0 : ℤ) < wideThumbnail.width ∧ 0 ≤ tenSecondLoop.getLoopRange.getLength ∧
    tenSecondLoop.getLoopRange.getLength = 10 ∧
    (wideThumbnail.mouseDrag tenSecondLoop ⟨-50, 0⟩).position = -5 ∧
    (wideThumbnail.mouseDrag tenSecondLoop ⟨-50, 0⟩).position < 0 ∧
    (wideThumbnail.mouseDrag tenSecondLoop ⟨200, 0⟩).position = 20 ∧
    tenSecondLoop.getLoopRange.getLength <
      (wideThumbnail.mouseDrag tenSecondLoop ⟨200, 0⟩).position := by
  norm_num [wideThumbnail, tenSecondLoop, Thumbnail.mouseDrag, Thumbnail.new,
    TransportControl.getLoopRange, TimeRange.getLength]

/-- Claim C8, amended: for a mouse event whose x coordinate lies inside the widget,
`0 ≤ x ≤ width`, on a thumbnail of width > 0 with loop length `L ≥ 0`, the position assigned
by `mouseDrag` (and by `mouseDown`), `(x / width) * L`, lies in `[0, L]`. -/
theorem mouseDrag_position_within_loop (th : Thumbnail) (transport : TransportControl)
    (e : MouseEvent) (hw : 0 < th.width) (hL : 0 ≤ transport.getLoopRange.getLength)
    (hx0 : 0 ≤ e.x) (hx1 : e.x ≤ th.width) :
    (th.mouseDrag transport e).position
      = e.x / th.width * transport.getLoopRange.getLength ∧
    (th.mouseDown transport e).position = (th.mouseDrag transport e).position ∧
    0 ≤ (th.mouseDrag transport e).position ∧
    (th.mouseDrag transport e).position ≤ transport.getLoopRange.getLength := by
  have hwq : (0 : ℚ) < (th.width : ℚ) := by exact_mod_cast hw
  have hp0 : 0 ≤ e.x / (th.width : ℚ) := div_nonneg hx0 (le_of_lt hwq)
  have hp1 : e.x / (th.width : ℚ) ≤ 1 := (div_le_one hwq).mpr hx1
  refine ⟨rfl, rfl, ?_, ?_⟩
  · exact mul_nonneg hp0 hL
  · exact mul_le_of_le_one_left hL hp1

/-- Witness for C8 amended: a drag to `x = 25` on the thumbnail 100 wide assigns a position
inside the loop of length 10. -/
theorem mouseDrag_position_within_loop_witness :
    (0 : ℤ) < wideThumbnail.width ∧
    0 ≤ (wideThumbnail.mouseDrag tenSecondLoop ⟨25, 0⟩).position ∧
    (wideThumbnail.mouseDrag tenSecondLoop ⟨25, 0⟩).position
      ≤ tenSecondLoop.getLoopRange.getLength :=
  ⟨by decide,
    (mouseDrag_position_within_loop wideThumbnail tenSecondLoop ⟨25, 0⟩ (by decide)
      (by norm_num [tenSecondLoop, TransportControl.getLoopRange, TimeRange.getLength])
      (by norm_num) (by norm_num [wideThumbnail, Thumbnail.new])).2.2⟩

/-- Claim C9: with `loaded = false`, clicking play/pause or pressing space leaves the whole
state, and so the transport, unchanged; with `loaded = true` either gesture replaces the
edit by `togglePlay` of it and changes nothing else; a key other than space changes
nothing; `keyPressed` always returns false. -/
theorem playPause_only_when_loaded (s : MainComponent) (k : KeyPress) :
    (s.loaded = false →
      s.playPauseButton_onClick = s ∧ (s.keyPressed ⟨KeyPress.spaceKey⟩).2 = s) ∧
    (s.loaded = true →
      s.playPauseButton_onClick = { s with edit := togglePlay s.edit } ∧
      (s.keyPressed ⟨KeyPress.spaceKey⟩).2 = { s with edit := togglePlay s.edit }) ∧
    (k.getKeyCode ≠ KeyPress.spaceKey → (s.keyPressed k).2 = s) ∧
    (s.keyPressed k).1 = false := by
  refine ⟨?_, ?_, ?_, rfl⟩
  · intro h
    simp [playPauseButton_onClick, keyPressed, KeyPress.getKeyCode, h]
  · intro h
    simp [playPauseButton_onClick, keyPressed, KeyPress.getKeyCode, h]
  · intro h
    simp [keyPressed, h]

/-- Witness for C9: nothing is loaded right after construction and the click changes
nothing; with `a.wav` loaded the space bar toggles the transport and the key `A` changes
nothing. -/
theorem playPause_only_when_loaded_witness :
    freshApp.loaded = false ∧ freshApp.playPauseButton_onClick = freshApp ∧
    loadedApp.loaded = true ∧
    (loadedApp.keyPressed ⟨KeyPress.spaceKey⟩).2 =
      { loadedApp with edit := togglePlay loadedApp.edit } ∧
    (loadedApp.keyPressed ⟨65⟩).2 = loadedApp :=
  ⟨by decide, ((playPause_only_when_loaded freshApp ⟨65⟩).1 (by decide)).1, by decide,
    ((playPause_only_when_loaded loadedApp ⟨65⟩).2.1 (by decide)).2,
    (playPause_only_when_loaded loadedApp ⟨65⟩).2.2.1 (by decide)⟩

/-- Claim C10 as stated fails: with an empty first argument the result is the second
argument, not the empty string; with a non-empty first argument the result is the first
argument, not the second. -/
theorem getStringOrDefault_not_as_commented :
    getStringOrDefault "" "fallback" = "fallback" ∧
    getStringOrDefault "" "fallback" ≠ "" ∧
    getStringOrDefault "title" "fallback" = "title" ∧
    getStringOrDefault "title" "fallback" ≠ "fallback" := by decide

/-- Claim C10, amended: `getStringOrDefault` returns the second argument if the first is
empty, and the first argument if it is not empty, for every pair of strings. -/
theorem getStringOrDefault_returns_default_iff_empty
    (stringToTest stringToReturnIfEmpty : String) :
    (stringToTest = "" →
      getStringOrDefault stringToTest stringToReturnIfEmpty = stringToReturnIfEmpty) ∧
    (stringToTest ≠ "" →
      getStringOrDefault stringToTest stringToReturnIfEmpty = stringToTest) := by
  unfold getStringOrDefault
  constructor
  · intro h
    rw [if_pos ((String.isEmpty_iff _).mpr h)]
  · intro h
    rw [if_neg (fun he => h ((String.isEmpty_iff _).mp he))]

/-- Witness for C10 amended: the empty string yields the fallback, `title` yields itself. -/
theorem getStringOrDefault_returns_default_iff_empty_witness :
    getStringOrDefault "" "fallback" = "fallback" ∧
    getStringOrDefault "title" "fallback" = "title" :=
  ⟨(getStringOrDefault_returns_default_iff_empty "" "fallback").1 rfl,
    (getStringOrDefault_returns_default_iff_empty "title" "fallback").2 (by decide)⟩

/-- Removing, one after the other, the clips of a list from a track keeps the clips whose id
is not the id of a clip in the list, and keeps the plugins. -/
theorem foldr_removeFromParentTrack (l : List WaveAudioClip) (track : AudioTrack) :
    (l.foldr (fun c t => c.removeFromParentTrack t) track).clips =
      track.clips.filter (fun d => !(l.any (fun c => d.itemID == c.itemID))) ∧
    (l.foldr (fun c t => c.removeFromParentTrack t) track).pluginList = track.pluginList := by
  have hc : ∀ (c : WaveAudioClip) (t : AudioTrack), (c.removeFromParentTrack t).clips =
      t.clips.filter (fun d => !(d.itemID == c.itemID)) := fun _ _ => rfl
  have hp : ∀ (c : WaveAudioClip) (t : AudioTrack),
      (c.removeFromParentTrack t).pluginList = t.pluginList := fun _ _ => rfl
  induction l with
  | nil => simp
  | cons a t ih =>
    constructor
    · rw [List.foldr_cons, hc, ih.1, List.filter_filter]
      congr 1
      funext d
      simp only [List.any_cons, Bool.not_or]
    · rw [List.foldr_cons, hp, ih.2]

/-- After `removeAllClips` the track has no clips, and the plugins it had. -/
theorem removeAllClips_clips (track : AudioTrack) :
    (removeAllClips track).clips = [] ∧
    (removeAllClips track).pluginList = track.pluginList := by
  unfold removeAllClips
  refine ⟨?_, (foldr_removeFromParentTrack track.clips track).2⟩
  rw [(foldr_removeFromParentTrack track.clips track).1]
  apply List.filter_eq_nil_iff.mpr
  intro d hd
  simp only [Bool.not_eq_true', Bool.not_eq_false, Bool.not_not, List.any_eq_true]
  simpa using ⟨d, hd, rfl⟩

/-- Claim C11: for every edit and file, if the file is not a valid audio file
`loadAudioFileAsClip` returns null and the clips on audio track 0 are unchanged (the edit
itself is unchanged when it already had a first track); if the file is valid and
`insertWaveClip` succeeds, the result is the new clip, positioned at `[0, file length]`
with offset 0, and track 0 holds exactly that one clip. -/
theorem loadAudioFileAsClip_replaces_clips_only_on_valid_file (edit : Edit) (file : File) :
    (AudioFile.isValid edit.engine ⟨file⟩ = false →
      (loadAudioFileAsClip edit file).1 = Option.none ∧
      (((loadAudioFileAsClip edit file).2.tracks[0]?).map AudioTrack.clips).getD [] =
        ((edit.tracks[0]?).map AudioTrack.clips).getD [] ∧
      (edit.tracks ≠ [] → (loadAudioFileAsClip edit file).2 = edit)) ∧
    (AudioFile.isValid edit.engine ⟨file⟩ = true →
      edit.engine.insertWaveClipSucceeds = true →
      ∃ newClip, (loadAudioFileAsClip edit file).1 = some newClip ∧
        newClip.position = ⟨⟨0, AudioFile.getLength edit.engine ⟨file⟩⟩, 0⟩ ∧
        newClip.sourceFile = file ∧
        ((loadAudioFileAsClip edit file).2.tracks[0]?).map AudioTrack.clips
          = some [newClip]) := by
  obtain ⟨engine, tracks, transport, n⟩ := edit
  constructor
  · intro hv
    simp only at hv
    cases tracks with
    | nil =>
      simp [loadAudioFileAsClip, getOrInsertAudioTrackAt, Edit.ensureNumberOfAudioTracks, hv,
        AudioTrack.empty]
    | cons t ts =>
      simp [loadAudioFileAsClip, getOrInsertAudioTrackAt, Edit.ensureNumberOfAudioTracks, hv]
  · intro hv hok
    simp only at hv hok
    cases tracks with
    | nil =>
      simp [loadAudioFileAsClip, getOrInsertAudioTrackAt, Edit.ensureNumberOfAudioTracks, hv,
        hok, AudioTrack.insertWaveClip, Edit.setTrack, removeAllClips_clips]
    | cons t ts =>
      simp [loadAudioFileAsClip, getOrInsertAudioTrackAt, Edit.ensureNumberOfAudioTracks, hv,
        hok, AudioTrack.insertWaveClip, Edit.setTrack, removeAllClips_clips]

/-- Witness for C11: with `a.wav` loaded (clip 0 on track 0), loading the undecodable
`broken.wav` returns null and leaves the edit as it is; loading `a.wav` again returns a new
clip at `[0, 5]` and track 0 holds exactly that clip. -/
theorem loadAudioFileAsClip_replaces_clips_only_on_valid_file_witness :
    AudioFile.isValid loadedApp.edit.engine ⟨⟨"broken.wav"⟩⟩ = false ∧
    loadedApp.edit.tracks.map (fun t => t.clips.map (fun c => c.itemID)) = [[0]] ∧
    (loadAudioFileAsClip loadedApp.edit ⟨"broken.wav"⟩).1 = Option.none ∧
    (loadAudioFileAsClip loadedApp.edit ⟨"broken.wav"⟩).2 = loadedApp.edit ∧
    AudioFile.isValid loadedApp.edit.engine ⟨⟨"a.wav"⟩⟩ = true ∧
    loadedApp.edit.engine.insertWaveClipSucceeds = true ∧
    AudioFile.getLength loadedApp.edit.engine ⟨⟨"a.wav"⟩⟩ = 5 ∧
    ∃ newClip, (loadAudioFileAsClip loadedApp.edit ⟨"a.wav"⟩).1 = some newClip ∧
      newClip.position = ⟨⟨0, AudioFile.getLength loadedApp.edit.engine ⟨⟨"a.wav"⟩⟩⟩, 0⟩ ∧
      newClip.sourceFile = ⟨"a.wav"⟩ ∧
      ((loadAudioFileAsClip loadedApp.edit ⟨"a.wav"⟩).2.tracks[0]?).map AudioTrack.clips
        = some [newClip] :=
  ⟨by decide, by decide,
    ((loadAudioFileAsClip_replaces_clips_only_on_valid_file loadedApp.edit
      ⟨"broken.wav"⟩).1 (by decide)).1,
    ((loadAudioFileAsClip_replaces_clips_only_on_valid_file loadedApp.edit
      ⟨"broken.wav"⟩).1 (by decide)).2.2 (by decide),
    by decide, by decide, by decide,
    (loadAudioFileAsClip_replaces_clips_only_on_valid_file loadedApp.edit ⟨"a.wav"⟩).2
      (by decide) (by decide)⟩

end Apollon
